import Mathlib

/-!
Shallow embedding of the mbari-org/lcm-websocket-server repository
(src/lcm_websocket_server), together with theorems settling the frozen
claims about its specification.

Conventions:
* Python `bytes` are `List Nat` (each element a byte value).
* Python `queue.Queue` is modelled by `PyQueue` (a FIFO list plus the
  `maxsize` bound; `maxsize = 0` means unbounded, as in the standard
  library).
* External collaborators (the `lcmutils` registry, `re`, `senlcm`,
  `cv2`, `lcmlog`) are modelled as parameters or, where the spec fixes
  their behaviour, as definitions whose doc comment says so.
-/

namespace LWS

/-- An LCM event as dispatched by the republisher: `(channel, data)`. -/
abbrev Event := String × List Nat

/-! ## Hex encoding (Python `bytes.hex()`) -/

/-- The lowercase hex digit of a nibble: code point 48 is the digit
zero, 87 + 10 = 97 is the letter a. -/
def hexDigit (n : Nat) : Char := Char.ofNat (if n < 10 then 48 + n else 87 + n)

/-- The sixteen lowercase hexadecimal digit characters, in order. -/
def hexDigits : List Char := (List.range 16).map hexDigit

/-- Two lowercase hex digits of one byte, as in Python `bytes.hex()`. -/
def byteHex (b : Nat) : List Char := [hexDigit (b / 16 % 16), hexDigit (b % 16)]

/-- Python `bytes.hex()`: lowercase hex string of a byte sequence. -/
def bytesHex (bs : List Nat) : String := ⟨bs.flatMap byteHex⟩

theorem bytesHex_length (bs : List Nat) : (bytesHex bs).length = 2 * bs.length := by
  induction bs with
  | nil => rfl
  | cons b bs ih =>
      simp only [bytesHex, String.length] at ih ⊢
      simp only [List.flatMap_cons, List.length_append, byteHex, List.length_cons,
        List.length_nil, ih, List.length_cons]
      omega

theorem hexDigit_mem (n : Nat) (h : n < 16) : hexDigit n ∈ hexDigits :=
  List.mem_map.mpr ⟨n, List.mem_range.mpr h, rfl⟩

theorem bytesHex_chars_lowercase (bs : List Nat) :
    ∀ c ∈ (bytesHex bs).data, c ∈ hexDigits := by
  intro c hc
  simp only [bytesHex] at hc
  rcases List.mem_flatMap.mp hc with ⟨b, _, hcb⟩
  simp only [byteHex, List.mem_cons, List.not_mem_nil, or_false] at hcb
  rcases hcb with h | h
  · exact h ▸ hexDigit_mem _ (Nat.mod_lt _ (by omega))
  · exact h ▸ hexDigit_mem _ (Nat.mod_lt _ (by omega))

/-! ## `lib/lcm_utils/pubsub.py`: `LCMObserver` and `LCMRepublisher` -/

/-- Python `queue.Queue`: a FIFO with a `maxsize` bound.  `maxsize = 0`
(the default, used by `LCMObserver.__init__`) means the queue is
unbounded. -/
structure PyQueue where
  maxsize : Nat
  items : List Event
deriving Repr, DecidableEq

/-- `queue.Queue.put` for an unbounded queue (`maxsize = 0`, the only
configuration constructed by this code base): appends the item at the
tail; it never blocks and never discards an entry. -/
def PyQueue.put (q : PyQueue) (e : Event) : PyQueue :=
  { q with items := q.items ++ [e] }

/-- `queue.Queue.qsize`. -/
def PyQueue.qsize (q : PyQueue) : Nat := q.items.length

/-- `LCMObserver`: a channel-regex filter plus a thread-safe queue.  The
compiled regex (Python `re`, an external collaborator) is modelled by the
total function `matchFn` it denotes on channel names, together with the
flag `regexBad` recording whether `re.fullmatch` raises `re.error` for
this pattern. -/
structure LCMObserver where
  matchFn : String → Bool
  regexBad : Bool
  lcmQueue : PyQueue

/-- `LCMObserver.__init__`: a fresh observer holds `queue.Queue()`
(`maxsize = 0`). -/
def LCMObserver.init (matchFn : String → Bool) (regexBad : Bool) : LCMObserver :=
  { matchFn := matchFn, regexBad := regexBad, lcmQueue := ⟨0, []⟩ }

/-- `LCMObserver.match`: `re.fullmatch(self._channel_regex, channel) is
not None`, returning `False` when `re.error` is raised. -/
def LCMObserver.match (o : LCMObserver) (channel : String) : Bool :=
  if o.regexBad then false else o.matchFn channel

/-- `LCMObserver.handle`: put the event in the queue. -/
def LCMObserver.handle (o : LCMObserver) (e : Event) : LCMObserver :=
  { o with lcmQueue := o.lcmQueue.put e }

/-- `LCMRepublisher`: the subscriber list (the LCM daemon thread is an
external collaborator; its delivery of `(channel, data)` tuples is the
input of `handleEvent` below). -/
structure LCMRepublisher where
  subscribers : List LCMObserver

/-- `LCMRepublisher._handle`: for each subscriber, if the subscriber
matches the channel, put the event in its queue. -/
def LCMRepublisher.handleEvent (r : LCMRepublisher) (channel : String)
    (data : List Nat) : LCMRepublisher :=
  { subscribers :=
      r.subscribers.map fun s =>
        if s.match channel then s.handle (channel, data) else s }

/-- `LCMRepublisher.inject`: dispatch a virtual message exactly as an
LCM-received one, by calling `_handle`. -/
def LCMRepublisher.inject (r : LCMRepublisher) (channel : String)
    (data : List Nat) : LCMRepublisher :=
  r.handleEvent channel data

/-- Dispatch a whole sequence of events through `_handle`, in order. -/
def dispatchAll (r : LCMRepublisher) (evs : List Event) : LCMRepublisher :=
  evs.foldl (fun acc e => acc.handleEvent e.1 e.2) r

/-- The events of `evs` an observer with `LCMObserver.match` behaviour
`m` receives, in dispatch order. -/
def matchedEvents (o : LCMObserver) (evs : List Event) : List Event :=
  evs.filter fun e => o.match e.1

theorem handleEvent_length (r : LCMRepublisher) (ch : String) (d : List Nat) :
    (r.handleEvent ch d).subscribers.length = r.subscribers.length := by
  simp [LCMRepublisher.handleEvent]

theorem dispatchAll_length (r : LCMRepublisher) (evs : List Event) :
    (dispatchAll r evs).subscribers.length = r.subscribers.length := by
  induction evs generalizing r with
  | nil => rfl
  | cons e evs ih =>
      have := ih (r.handleEvent e.1 e.2)
      rw [handleEvent_length] at this
      simpa [dispatchAll] using this

theorem handleEvent_getElem? (r : LCMRepublisher) (ch : String) (d : List Nat)
    (i : Nat) (o : LCMObserver) (h : r.subscribers[i]? = some o) :
    (r.handleEvent ch d).subscribers[i]? =
      some (if o.match ch then o.handle (ch, d) else o) := by
  simp [LCMRepublisher.handleEvent, List.getElem?_map, h]

theorem match_handle (o : LCMObserver) (e : Event) (c : String) :
    (o.handle e).match c = o.match c := rfl

theorem matchedEvents_handle (o : LCMObserver) (e : Event) (evs : List Event) :
    matchedEvents (o.handle e) evs = matchedEvents o evs := rfl

theorem matchedEvents_cons (o : LCMObserver) (e : Event) (evs : List Event) :
    matchedEvents o (e :: evs) =
      if o.match e.1 then e :: matchedEvents o evs else matchedEvents o evs := by
  simp [matchedEvents, List.filter_cons]

/-- Master dispatch lemma: after dispatching `evs`, subscriber `i`'s
queue holds its previous items followed by exactly the events whose
channel it matches, in dispatch order; its matching behaviour and the
queue bound are unchanged. -/
theorem dispatchAll_getElem? (evs : List Event) (r : LCMRepublisher)
    (i : Nat) (o : LCMObserver) (h : r.subscribers[i]? = some o) :
    (dispatchAll r evs).subscribers[i]? =
      some { o with lcmQueue := ⟨o.lcmQueue.maxsize,
              o.lcmQueue.items ++ matchedEvents o evs⟩ } := by
  induction evs generalizing r o with
  | nil =>
      have heta : ({ o with lcmQueue := ⟨o.lcmQueue.maxsize,
          o.lcmQueue.items ++ []⟩ } : LCMObserver) = o := by
        cases o with
        | mk mf rb q => cases q; simp
      simpa [dispatchAll, matchedEvents, heta] using h
  | cons e evs ih =>
      have hstep := handleEvent_getElem? r e.1 e.2 i o h
      have hd : dispatchAll r (e :: evs) = dispatchAll (r.handleEvent e.1 e.2) evs := rfl
      by_cases hm : o.match e.1 = true
      · rw [if_pos hm] at hstep
        have hrec := ih (r.handleEvent e.1 e.2) (o.handle e) hstep
        rw [hd, hrec, matchedEvents_handle, matchedEvents_cons, if_pos hm]
        simp [LCMObserver.handle, PyQueue.put]
      · rw [if_neg hm] at hstep
        have hrec := ih (r.handleEvent e.1 e.2) o hstep
        rw [hd, hrec, matchedEvents_cons, if_neg hm]

/-! ## `lib/lcm_utils/types.py`: value encoding and the JSON envelope -/

/-- A Python float: NaN, the two infinities, or a finite value
(modelled exactly as a rational; the claims settled here depend only on
the NaN/zero/sign structure, which the rational model reflects). -/
inductive PyFloat where
  | nan : PyFloat
  | inf : PyFloat
  | ninf : PyFloat
  | finite : ℚ → PyFloat
deriving Repr, DecidableEq

/-- Python `value != value`, which is true exactly for NaN. -/
def PyFloat.isNaN : PyFloat → Bool
  | .nan => true
  | _ => false

/-- A decoded Python value tree as handled by `encode_value`: LCM
message instances (`LCMType`, carrying their `__slots__` in order with
the attribute values), lists, dicts, bytes, floats, and the remaining
scalars (bools, ints, strings). -/
inductive PyValue where
  | pbool : Bool → PyValue
  | pint : Int → PyValue
  | pfloat : PyFloat → PyValue
  | pstr : String → PyValue
  | pbytes : List Nat → PyValue
  | plist : List PyValue → PyValue
  | pdict : List (String × PyValue) → PyValue
  | plcm : List (String × PyValue) → PyValue

/-- A JSON value as built by the handler before `json.dumps`
serialisation (the `json` stdlib serialiser is an external
collaborator; the claims are about the structure handed to it). -/
inductive JValue where
  | jnull : JValue
  | jbool : Bool → JValue
  | jint : Int → JValue
  | jfloat : PyFloat → JValue
  | jstr : String → JValue
  | jarr : List JValue → JValue
  | jobj : List (String × JValue) → JValue

mutual

/-- `encode_value`: LCM instances recurse through `encode_event_dict`,
lists and dicts recurse element-wise, bytes become their lowercase hex
string, a NaN float becomes `None` (JSON null), everything else passes
through. -/
def encode_value : PyValue → JValue
  | .plcm slots => .jobj (encodePairs slots)
  | .plist l => .jarr (encodeList l)
  | .pdict l => .jobj (encodePairs l)
  | .pbytes bs => .jstr (bytesHex bs)
  | .pfloat f => if f.isNaN then .jnull else .jfloat f
  | .pbool b => .jbool b
  | .pint n => .jint n
  | .pstr s => .jstr s

/-- `list(map(encode_value, value))`. -/
def encodeList : List PyValue → List JValue
  | [] => []
  | v :: vs => encode_value v :: encodeList vs

/-- Element-wise `encode_value` over the `(key, value)` pairs of a dict
or of an LCM instance's `__slots__`. -/
def encodePairs : List (String × PyValue) → List (String × JValue)
  | [] => []
  | p :: ps => (p.1, encode_value p.2) :: encodePairs ps

end

theorem encodeList_eq_map (l : List PyValue) :
    encodeList l = l.map encode_value := by
  induction l with
  | nil => rfl
  | cons v vs ih => simp [encodeList, ih]

theorem encodePairs_eq_map (l : List (String × PyValue)) :
    encodePairs l = l.map fun p => (p.1, encode_value p.2) := by
  induction l with
  | nil => rfl
  | cons p ps ih => simp [encodePairs, ih]

/-- `encode_event_dict`: the dictionary mapping each slot of the LCM
instance to its encoded value (an LCM instance is modelled as its
ordered slot/value list). -/
def encode_event_dict (slots : List (String × PyValue)) : List (String × JValue) :=
  encodePairs slots

/-- `encode_event_json`: the JSON envelope handed to `json.dumps` —
`channel`, `fingerprint`, and the encoded event (an empty object when
the event is `None`). -/
def encode_event_json (channel : String) (fingerprint : String)
    (event : Option (List (String × PyValue))) : JValue :=
  .jobj [("channel", .jstr channel),
         ("fingerprint", .jstr fingerprint),
         ("event", match event with
                   | some ev => .jobj (encode_event_dict ev)
                   | none => .jobj [])]

/-! ## `apps/json_proxy.py`: `JSONHandler.handle`

`LCMTypeRegistry.decode` (from the external `lcmutils` package) is
modelled as a parameter `registryDecode`: `Except.error` models a raised
exception, `Except.ok none` models the `None` returned for an
unregistered fingerprint or an undecodable payload. -/

/-- `JSONHandler.handle`: decode via the registry (a raised exception is
caught and yields `None`, i.e. no frame); otherwise emit the JSON
envelope built from the channel, the hex of the payload's first 8
bytes, and the decoded event (which may itself be `None`). -/
def JSONHandler.handle (registryDecode : List Nat → Except Unit (Option (List (String × PyValue))))
    (channel : String) (data : List Nat) : Option JValue :=
  match registryDecode data with
  | .error _ => none
  | .ok event => some (encode_event_json channel (bytesHex (data.take 8)) event)

/-- Modelled from the spec: the decode operation of a registry holding
no types — an unknown fingerprint "returns null" and "decode never
throws when fingerprint is unknown" (spec sections 3 and 4.1). -/
def emptyRegistryDecode : List Nat → Except Unit (Option (List (String × PyValue))) :=
  fun _ => .ok none

/-! ## `lib/server.py`: `LCMWebSocketServer` -/

/-- Python `int(str)` restricted to its decimal form: optional
surrounding whitespace, an optional sign, then one or more decimal
digits; `None` models the raised `ValueError` on any other input. -/
def digitVal (c : Char) : Option Nat :=
  if '0' ≤ c ∧ c ≤ '9' then some (c.toNat - '0'.toNat) else none

/-- The value of a nonempty all-decimal-digit character run. -/
def parseDigits (cs : List Char) : Option Nat :=
  match cs with
  | [] => none
  | _ => cs.foldlM (fun acc c => (digitVal c).map (acc * 10 + ·)) 0

/-- An ASCII whitespace character, as stripped by Python `int(str)`:
space, tab, line feed, carriage return (by code point). -/
def isPySpace (c : Char) : Bool :=
  c.toNat == 32 || c.toNat == 9 || c.toNat == 10 || c.toNat == 13

/-- Python `int(s)` (see `digitVal`); `none` models `ValueError`. -/
def pythonInt (s : String) : Option Int :=
  let cs := ((s.data.dropWhile isPySpace).reverse.dropWhile isPySpace).reverse
  match cs with
  | '+' :: rest => (parseDigits rest).map Int.ofNat
  | '-' :: rest => (parseDigits rest).map fun n => -(n : Int)
  | rest => (parseDigits rest).map Int.ofNat

/-- Which drain loop `websocket_handler` enters. -/
inductive UpdateMode where
  | immediate : UpdateMode
  | coalescing : Int → UpdateMode
deriving Repr, DecidableEq

/-- `websocket_handler` lines 42-49: `update_interval_ms` stays `None`
unless the query parameter is present and `int(...)` succeeds, in which
case it is that integer (the first value of the parameter). -/
def parse_update_interval (qp : Option String) : Option Int :=
  qp.bind pythonInt

/-- `websocket_handler` lines 62-66: the periodic (coalescing) loop is
entered exactly when `update_interval_ms is not None`; otherwise the
immediate loop. -/
def websocketMode (qp : Option String) : UpdateMode :=
  match parse_update_interval qp with
  | some v => .coalescing v
  | none => .immediate

/-- A frame sent to a WebSocket client: text (JSON) or binary. -/
inductive Frame where
  | text : JValue → Frame
  | binary : List Nat → Frame

/-- One `_update_loop` iteration body for a dequeued event, given the
handler (whose raised exception is modelled by `Except.error`): an
exception is logged and the loop `continue`s — no frame is sent and
`task_done` is skipped; a `None` response sends nothing but marks
`task_done`; otherwise the frame is sent and `task_done` marked.
Returns `(frame sent, task_done called)`. -/
def serverHandleEvent (h : String → List Nat → Except String (Option Frame))
    (channel : String) (data : List Nat) : Option Frame × Bool :=
  match h channel data with
  | .error _ => (none, false)
  | .ok none => (none, true)
  | .ok (some f) => (some f, true)

/-- Python dict insertion semantics: overwriting an existing key keeps
its position; a new key is appended. -/
def pyDictSet {κ α : Type} [DecidableEq κ] (m : List (κ × α)) (k : κ) (v : α) :
    List (κ × α) :=
  if (m.map Prod.fst).contains k then
    m.map fun p => if p.1 = k then (k, v) else p
  else m ++ [(k, v)]

/-- State of one client task running `_periodic_update_loop`: its
observer's matching behaviour, the events pending in its observer queue
at the start of a cycle, and the `(channel, data)` pairs it has handled
and sent so far. -/
structure CoalescingClient where
  matchFn : String → Bool
  pending : List Event
  sent : List Event

/-- The shared `self._channel_latest_data` map: `channel -> data|None`.
In the source this is an attribute of `LCMWebSocketServer.__init__`, so
every client's `_periodic_update_loop` reads and writes the same map. -/
abbrev ChannelLatest := List (String × Option (List Nat))

/-- The drain phase of one `_periodic_update_loop` cycle: pop every
pending event and write `self._channel_latest_data[channel] = data`. -/
def drainPhase (shared : ChannelLatest) (c : CoalescingClient) :
    ChannelLatest × CoalescingClient :=
  (c.pending.foldl (fun m e => pyDictSet m e.1 (some e.2)) shared,
   { c with pending := [] })

/-- The flush phase of one `_periodic_update_loop` cycle: for every
channel whose entry is non-`None`, handle and send it to this client,
then clear the entry (the handler/send success path).  The two phases
are the atomic units of a cycle: the only suspension points of the
loop are the `await` on the handler and on `send`, both inside the
flush, and the `finally` clearing an entry runs only after the handler
`await` — so another client's full cycle can run while drained values
are still in the shared map. -/
def flushPhase (shared : ChannelLatest) (c : CoalescingClient) :
    ChannelLatest × CoalescingClient :=
  (shared.map fun p => (p.1, (none : Option (List Nat))),
   { c with sent := c.sent ++ shared.filterMap fun p => p.2.map ((p.1, ·)) })

/-- One full `_periodic_update_loop` cycle of a client against the
shared map: drain, then flush. -/
def coalescingCycle (shared : ChannelLatest) (c : CoalescingClient) :
    ChannelLatest × CoalescingClient :=
  let (s1, c1) := drainPhase shared c
  flushPhase s1 c1

/-! ## `image.py`: pixel-format codec registry -/

/-- The `PixelFormat` enumeration, all members in source order. -/
inductive PixelFormat where
  | UYVY | YUYV | IYU1 | IYU2 | YUV420 | YUV411P | I420 | NV12
  | GRAY | RGB | BGR | RGBA | BGRA
  | BAYER_BGGR | BAYER_GBRG | BAYER_GRBG | BAYER_RGGB
  | BE_BAYER16_BGGR | BE_BAYER16_GBRG | BE_BAYER16_GRBG | BE_BAYER16_RGGB
  | LE_BAYER16_BGGR | LE_BAYER16_GBRG | LE_BAYER16_GRBG | LE_BAYER16_RGGB
  | MJPEG | BE_GRAY16 | LE_GRAY16 | BE_RGB16 | LE_RGB16
  | BE_SIGNED_GRAY16 | BE_SIGNED_RGB16 | FLOAT_GRAY32 | INVALID | ANY
deriving Repr, DecidableEq, Fintype

/-- The integer enumerant of each `PixelFormat` member. -/
def PixelFormat.value : PixelFormat → Int
  | .UYVY => 1498831189
  | .YUYV => 1448695129
  | .IYU1 => 827677001
  | .IYU2 => 844454217
  | .YUV420 => 842093913
  | .YUV411P => 1345401140
  | .I420 => 808596553
  | .NV12 => 842094158
  | .GRAY => 1497715271
  | .RGB => 859981650
  | .BGR => 861030210
  | .RGBA => 876758866
  | .BGRA => 877807426
  | .BAYER_BGGR => 825770306
  | .BAYER_GBRG => 844650584
  | .BAYER_GRBG => 861427800
  | .BAYER_RGGB => 878205016
  | .BE_BAYER16_BGGR => 826360386
  | .BE_BAYER16_GBRG => 843137602
  | .BE_BAYER16_GRBG => 859914818
  | .BE_BAYER16_RGGB => 876692034
  | .LE_BAYER16_BGGR => 826360396
  | .LE_BAYER16_GBRG => 843137612
  | .LE_BAYER16_GRBG => 859914828
  | .LE_BAYER16_RGGB => 876692044
  | .MJPEG => 1196444237
  | .BE_GRAY16 => 357
  | .LE_GRAY16 => 909199180
  | .BE_RGB16 => 358
  | .LE_RGB16 => 1279412050
  | .BE_SIGNED_GRAY16 => 359
  | .BE_SIGNED_RGB16 => 360
  | .FLOAT_GRAY32 => 842221382
  | .INVALID => -2
  | .ANY => -1

/-- The encoder classes defined in `image.py` (their `encode` bodies
delegate to `cv2`/`numpy`, external collaborators). -/
inductive EncoderCls where
  | BGREncoder | RGBEncoder | GrayEncoder | MJPEGEncoder
deriving Repr, DecidableEq, Fintype

/-- The decoder classes defined in `image.py`. -/
inductive DecoderCls where
  | BGRDecoder | RGBDecoder | GrayDecoder
  | BayerBGGRDecoder | BayerGBRGDecoder | BayerGRBGDecoder | BayerRGGBDecoder
  | MJPEGDecoder
deriving Repr, DecidableEq, Fintype

/-- The pair `(_ENCODER_MAP, _DECODER_MAP)`. Note `_register` stores
`encoder` in `_ENCODER_MAP` even when the keyword argument was left at
its default `None`. -/
abbrev CodecMaps := List (PixelFormat × Option EncoderCls) × List (PixelFormat × DecoderCls)

/-- `_register(format, *, decoder, encoder=None)`: set
`_ENCODER_MAP[format] = encoder` and `_DECODER_MAP[format] = decoder`. -/
def registerCodec (maps : CodecMaps) (format : PixelFormat)
    (decoder : DecoderCls) (encoder : Option EncoderCls) : CodecMaps :=
  (pyDictSet maps.1 format encoder, pyDictSet maps.2 format decoder)

/-- The module-level `_register` call sequence at the bottom of
`image.py`, applied to the initially empty maps. -/
def codecMaps : CodecMaps :=
  let m := (([] : List (PixelFormat × Option EncoderCls)),
            ([] : List (PixelFormat × DecoderCls)))
  let m := registerCodec m .BGR .BGRDecoder (some .BGREncoder)
  let m := registerCodec m .RGB .RGBDecoder (some .RGBEncoder)
  let m := registerCodec m .GRAY .GrayDecoder (some .GrayEncoder)
  let m := registerCodec m .BAYER_BGGR .BayerBGGRDecoder none
  let m := registerCodec m .BAYER_GBRG .BayerGBRGDecoder none
  let m := registerCodec m .BAYER_GRBG .BayerGRBGDecoder none
  let m := registerCodec m .BAYER_RGGB .BayerRGGBDecoder none
  registerCodec m .MJPEG .MJPEGDecoder (some .MJPEGEncoder)

/-- `get_encoder`: return `_ENCODER_MAP[format]` (which may be the
stored `None`), raising `UnsupportedPixelFormatError` — modelled as
`Except.error format` — only on `KeyError`, i.e. when the format was
never registered. -/
def get_encoder (format : PixelFormat) : Except PixelFormat (Option EncoderCls) :=
  match List.lookup format codecMaps.1 with
  | some v => .ok v
  | none => .error format

/-- `get_decoder`: return `_DECODER_MAP[format]`, raising
`UnsupportedPixelFormatError` on `KeyError`. -/
def get_decoder (format : PixelFormat) : Except PixelFormat DecoderCls :=
  match List.lookup format codecMaps.2 with
  | some v => .ok v
  | none => .error format

/-! ## `apps/dial_proxy.py`: `DialHandler` -/

/-- The fields of a decoded `senlcm.image_t` used by the dial handler
(`header.timestamp`, the geometry, the pixel format enumerant, and the
raw image bytes). -/
structure ImageT where
  headerTimestamp : Int
  width : Int
  height : Int
  pixelformat : Int
  data : List Nat

/-- UTF-8 bytes of a channel name (`channel.encode("utf-8")`). -/
def utf8Bytes (s : String) : List Nat := s.toUTF8.toList.map (·.toNat)

/-- The external collaborators `DialHandler` composes over:
`image_t._get_packed_fingerprint()` and `image_t.decode` (senlcm),
the post-decode `ImageMessageToJPEGHandler` pipeline
(pixel-format lookup, raw decode, JPEG encode — its internal failures
are caught and yield `Option.none`, other raised exceptions are
`Except.error`), the `lcmlog` `Header` byte serialisation, and the
registry decode used by the nested `JSONHandler`. -/
structure DialEnv where
  imageFingerprint : List Nat
  decodeImage : List Nat → Except String ImageT
  jpegOf : ImageT → Except String (Option (List Nat))
  encodeHeader : Int → Int → Nat → Nat → List Nat
  jsonDecode : List Nat → Except Unit (Option (List (String × PyValue)))

/-- `DialHandler._encode_image_t`: decode the `image_t` — this
`image_t.decode(data)` call is NOT wrapped in a `try`, so a raised
decode exception propagates (`Except.error`); then JPEG-encode via the
image handler (a `None` there means drop) and build the binary frame
`header_bytes + channel_name_utf8 + jpeg_bytes` with
`Header(0, payload_header.timestamp, len(channel_name_utf8), len(data))`. -/
def DialHandler.encode_image_t (env : DialEnv) (channel : String)
    (data : List Nat) : Except String (Option (List Nat)) := do
  let image_event ← env.decodeImage data
  match ← env.jpegOf image_event with
  | none => return none
  | some jpeg_bytes =>
      let channel_name_utf8 := utf8Bytes channel
      return some (env.encodeHeader 0 image_event.headerTimestamp
          channel_name_utf8.length data.length ++ channel_name_utf8 ++ jpeg_bytes)

/-- `DialHandler.handle`: if the payload's first 8 bytes equal the
`image_t` fingerprint, `_encode_image_t` (binary frame); else the JSON
handler (text frame). -/
def DialHandler.handle (env : DialEnv) (channel : String) (data : List Nat) :
    Except String (Option Frame) :=
  if data.take 8 = env.imageFingerprint then
    (DialHandler.encode_image_t env channel data).map (Option.map Frame.binary)
  else
    .ok ((JSONHandler.handle env.jsonDecode channel data).map Frame.text)

/-! ## `lib/lcm_utils/spy.py`: `ChannelData`

Float arithmetic is modelled over `ℚ`; the float sentinel
`float('inf')` used for `_hz_min_interval` is modelled as `Option.none`
(intervals are integer nanosecond differences in the source, so they
live in `ℤ` until `update_hz_data` divides by `1e9`). -/

/-- `float('inf') min-accumulation`: `min(self._hz_min_interval,
interval)` where `none` is the infinity sentinel. -/
def minSentinel (m : Option ℤ) (interval : ℤ) : Option ℤ :=
  some (match m with
        | none => interval
        | some v => min v interval)

/-- The state of `ChannelData.__init__` plus its mutating methods. -/
structure ChannelData where
  last_type : Option String
  num_msgs : Nat
  last_timestamp : Option Int
  min_interval : Option ℚ
  max_interval : Option ℚ
  bandwidth : ℚ
  undecodable : Nat
  hz : ℚ
  hz_min_interval : Option ℤ
  hz_max_interval : ℤ
  hz_bytes : Nat
  hz_last_timestamp : Int
  hz_last_nreceived : Nat

/-- `ChannelData.__init__`. -/
def ChannelData.init : ChannelData :=
  { last_type := none, num_msgs := 0, last_timestamp := none,
    min_interval := none, max_interval := none, bandwidth := 0,
    undecodable := 0, hz := 0, hz_min_interval := none,
    hz_max_interval := 0, hz_bytes := 0, hz_last_timestamp := 0,
    hz_last_nreceived := 0 }

/-- `ChannelData.message_received` (the `time_ns()` call is passed in
as `timestamp`). -/
def ChannelData.message_received (d : ChannelData) (lcm_type : String)
    (len_data : Nat) (decoded : Bool) (timestamp : Int) : ChannelData :=
  let d := { d with
    num_msgs := d.num_msgs + 1,
    last_type := some lcm_type,
    last_timestamp := some timestamp,
    undecodable := if decoded then d.undecodable else d.undecodable + 1 }
  let d :=
    if d.hz_last_timestamp > 0 then
      let interval := timestamp - d.hz_last_timestamp
      { d with hz_min_interval := minSentinel d.hz_min_interval interval,
               hz_max_interval := max d.hz_max_interval interval }
    else
      { d with hz_last_timestamp := timestamp }
  { d with hz_bytes := d.hz_bytes + len_data }

/-- `ChannelData.update_hz_data`. -/
def ChannelData.update_hz_data (d : ChannelData) (timestamp : Int) : ChannelData :=
  let diff_recv : ℤ := (d.num_msgs : ℤ) - (d.hz_last_nreceived : ℤ)
  let dt : ℤ := timestamp - d.hz_last_timestamp
  { d with
    hz_last_nreceived := d.num_msgs,
    hz_last_timestamp := timestamp,
    hz := if 0 < dt then (diff_recv : ℚ) / ((dt : ℚ) / 1000000000) else 0,
    min_interval := match d.hz_min_interval with
                    | some m => some ((m : ℚ) / 1000000000)
                    | none => none,
    max_interval := some ((d.hz_max_interval : ℚ) / 1000000000),
    hz_min_interval := none,
    hz_max_interval := 0,
    bandwidth := if 0 < dt then (d.hz_bytes : ℚ) / ((dt : ℚ) / 1000000000) else 0,
    hz_bytes := 0 }

/-- The generated LCM record `channel_stats` (its definition lives in
`lib/lcm_utils/channel_stats`, outside `src/`; modelled from the spec's
field list, section 6: `channel`, `type`, `num_msgs`, `hz`, `inv_hz`,
`jitter`, `bandwidth`, `undecodable`; its float `inv_hz` can hold
`float('inf')`, modelled as `Option.none`). -/
structure ChannelStatsRec where
  channel : String
  typeName : String
  num_msgs : Nat
  hz : ℚ
  inv_hz : Option ℚ
  jitter : ℚ
  bandwidth : ℚ
  undecodable : Nat

/-- `ChannelData.report`. -/
def ChannelData.report (d : ChannelData) (channel : String) : ChannelStatsRec :=
  { channel := channel,
    typeName := d.last_type.getD "",
    num_msgs := d.num_msgs,
    hz := d.hz,
    inv_hz := if 0 < d.hz then some (1 / d.hz) else none,
    jitter := match d.min_interval, d.max_interval with
              | some m, some M => M - m
              | _, _ => 0,
    bandwidth := d.bandwidth,
    undecodable := d.undecodable }

/-- The `ChannelData` states that actually arise in a run: the fresh
state evolved by any interleaving of `message_received` (spy LCM
thread) and `update_hz_data` (tick thread). -/
inductive ChannelData.Reachable : ChannelData → Prop where
  | init : ChannelData.Reachable ChannelData.init
  | message_received {d : ChannelData} (t : String) (n : Nat) (b : Bool) (ts : Int) :
      ChannelData.Reachable d → ChannelData.Reachable (d.message_received t n b ts)
  | update_hz_data {d : ChannelData} (ts : Int) :
      ChannelData.Reachable d → ChannelData.Reachable (d.update_hz_data ts)

/-- The run invariant of `ChannelData` that the spy claims rest on. -/
def ChannelData.Inv (d : ChannelData) : Prop :=
  0 ≤ d.hz ∧
  d.hz_last_nreceived ≤ d.num_msgs ∧
  (∀ m, d.hz_min_interval = some m → m ≤ d.hz_max_interval) ∧
  (∀ m M, d.min_interval = some m → d.max_interval = some M → m ≤ M)

theorem ChannelData.inv_init : ChannelData.init.Inv := by
  refine ⟨le_refl 0, Nat.le_refl 0, ?_, ?_⟩
  · intro m hm; cases hm
  · intro m M hm _; cases hm

theorem ChannelData.inv_message_received (d : ChannelData) (hd : d.Inv)
    (t : String) (n : Nat) (b : Bool) (ts : Int) :
    (d.message_received t n b ts).Inv := by
  obtain ⟨h1, h2, h3, h4⟩ := hd
  unfold ChannelData.message_received
  by_cases hlt : d.hz_last_timestamp > 0
  · simp only [hlt, if_true]
    refine ⟨h1, Nat.le_succ_of_le h2, ?_, h4⟩
    intro m hm
    cases hmin : d.hz_min_interval with
    | none =>
        simp [minSentinel, hmin] at hm
        simp [← hm, le_max_right]
    | some v =>
        simp [minSentinel, hmin] at hm
        have := h3 v hmin
        calc m = min v (ts - d.hz_last_timestamp) := hm.symm
          _ ≤ v := min_le_left _ _
          _ ≤ d.hz_max_interval := this
          _ ≤ max d.hz_max_interval (ts - d.hz_last_timestamp) := le_max_left _ _
  · simp only [hlt, if_false]
    exact ⟨h1, Nat.le_succ_of_le h2, h3, h4⟩

theorem ChannelData.inv_update_hz_data (d : ChannelData) (hd : d.Inv) (ts : Int) :
    (d.update_hz_data ts).Inv := by
  obtain ⟨_, h2, h3, _⟩ := hd
  unfold ChannelData.update_hz_data
  refine ⟨?_, Nat.le_refl _, ?_, ?_⟩
  · dsimp only
    split
    · next hdt =>
        apply div_nonneg
        · have : (d.hz_last_nreceived : ℚ) ≤ (d.num_msgs : ℚ) := by
            exact_mod_cast h2
          push_cast
          linarith
        · positivity
    · exact le_refl 0
  · intro m hm; cases hm
  · intro m M hm hM
    dsimp only at hm hM
    cases hmin : d.hz_min_interval with
    | none => rw [hmin] at hm; cases hm
    | some v =>
        rw [hmin, Option.some_inj] at hm
        have hv := h3 v hmin
        have hM2 : M = (d.hz_max_interval : ℚ) / 1000000000 := by
          simpa using hM.symm
        rw [← hm, hM2]
        apply div_le_div_of_nonneg_right _ (by norm_num)
        exact_mod_cast hv

theorem ChannelData.reachable_inv {d : ChannelData} (h : d.Reachable) : d.Inv := by
  induction h with
  | init => exact ChannelData.inv_init
  | message_received t n b ts _ ih => exact ChannelData.inv_message_received _ ih t n b ts
  | update_hz_data ts _ ih => exact ChannelData.inv_update_hz_data _ ih ts

/-! ## Auxiliary definitions for stating and witnessing the claims -/

instance {ε α : Type} [DecidableEq ε] [DecidableEq α] : DecidableEq (Except ε α) :=
  fun x y =>
  match x, y with
  | .ok a, .ok b =>
      if h : a = b then .isTrue (by rw [h])
      else .isFalse (by intro hc; cases hc; exact h rfl)
  | .error a, .error b =>
      if h : a = b then .isTrue (by rw [h])
      else .isFalse (by intro hc; cases hc; exact h rfl)
  | .ok _, .error _ => .isFalse (by intro hc; cases hc)
  | .error _, .ok _ => .isFalse (by intro hc; cases hc)

/-- Look a field up in a JSON object (the envelope's top level). -/
def JValue.field (j : JValue) (k : String) : Option JValue :=
  match j with
  | .jobj l => List.lookup k l
  | _ => none

/-- The pixel formats passed to `_register` in `image.py`. -/
def registeredFormats : List PixelFormat :=
  [.BGR, .RGB, .GRAY, .BAYER_BGGR, .BAYER_GBRG, .BAYER_GRBG, .BAYER_RGGB, .MJPEG]

/-- The pixel formats `_register`ed with an actual encoder class. -/
def encoderFormats : List PixelFormat := [.BGR, .RGB, .GRAY, .MJPEG]

/-- The four formats `_register`ed with the `encoder` argument left at
`None`. -/
def decoderOnlyFormats : List PixelFormat :=
  [.BAYER_BGGR, .BAYER_GBRG, .BAYER_GRBG, .BAYER_RGGB]

/-- Example observer subscribed to channel `FOO` (scenario S2). -/
def obsFoo : LCMObserver := LCMObserver.init (fun c => c == "FOO") false

/-- Example observer subscribed to channel `BAR` (scenario S2). -/
def obsBar : LCMObserver := LCMObserver.init (fun c => c == "BAR") false

/-- Example republisher with the two observers of scenario S2. -/
def rEx : LCMRepublisher := ⟨[obsFoo, obsBar]⟩

/-- Example dispatch sequence of scenario S2. -/
def evsEx : List Event := [("FOO", [1]), ("BAR", [2]), ("BAZ", [3])]

/-- Coalescing client subscribed to channel `X` with one drained event
pending. -/
def clientX : CoalescingClient := ⟨(· == "X"), [("X", [171])], []⟩

/-- Coalescing client subscribed to channel `Y` with nothing pending. -/
def clientY : CoalescingClient := ⟨(· == "Y"), [], []⟩

/-- Example reachable `ChannelData`: two messages at t=5 and t=7 ns,
then a tick at t=9 ns. -/
def chanEx : ChannelData :=
  ((ChannelData.init.message_received "t" 10 true 5).message_received
    "t" 10 true 7).update_hz_data 9

/-- Example dial environment: a registry whose `image_t.decode` raises
on every payload. -/
def dialEnvEx : DialEnv :=
  { imageFingerprint := [1, 2, 3, 4, 5, 6, 7, 8],
    decodeImage := fun _ => .error "malformed",
    jpegOf := fun _ => .ok none,
    encodeHeader := fun _ _ _ _ => [],
    jsonDecode := emptyRegistryDecode }

/-! ## Claim theorems -/

/-- Claim C1: for every event dispatched by the republisher (`inject`
is literally a call to `_handle`, so both entry points coincide) and
every observer in the subscriber set, the event is enqueued into the
observer's mailbox iff the observer's compiled regex full-matches the
channel — after dispatching a sequence, each observer's mailbox is its
previous contents followed by exactly the matching events, in dispatch
order; hence observers with disjoint regexes never both receive an
event, and observers with identical regexes receive exactly the same
events in the same per-observer FIFO order. -/
theorem republisher_dispatch_iff :
    (∀ r ch d, LCMRepublisher.inject r ch d = r.handleEvent ch d) ∧
    (∀ (evs : List Event) (r : LCMRepublisher) (i : Nat) (o : LCMObserver),
      r.subscribers[i]? = some o →
      (dispatchAll r evs).subscribers[i]? =
        some { o with lcmQueue := ⟨o.lcmQueue.maxsize,
                o.lcmQueue.items ++ matchedEvents o evs⟩ } ∧
      ∀ e ∈ evs, (e ∈ matchedEvents o evs ↔ o.match e.1 = true)) ∧
    (∀ evs o1 o2, (∀ c, ¬(o1.match c = true ∧ o2.match c = true)) →
      ∀ e, ¬(e ∈ matchedEvents o1 evs ∧ e ∈ matchedEvents o2 evs)) ∧
    (∀ evs o1 o2, (∀ c, o1.match c = o2.match c) →
      matchedEvents o1 evs = matchedEvents o2 evs) := by
  refine ⟨fun _ _ _ => rfl, ?_, ?_, ?_⟩
  · intro evs r i o h
    refine ⟨dispatchAll_getElem? evs r i o h, ?_⟩
    intro e he
    unfold matchedEvents
    constructor
    · intro hmem
      exact (List.mem_filter.mp hmem).2
    · intro hmatch
      exact List.mem_filter.mpr ⟨he, hmatch⟩
  · intro evs o1 o2 hdisj e ⟨h1, h2⟩
    exact hdisj e.1 ⟨(List.mem_filter.mp h1).2, (List.mem_filter.mp h2).2⟩
  · intro evs o1 o2 hsame
    unfold matchedEvents
    exact List.filter_congr fun e _ => by rw [hsame]

/-- Witness for C1 at scenario S2: dispatching events on `FOO`, `BAR`,
`BAZ` to observers subscribed to `FOO` and `BAR`, the first observer's
mailbox receives exactly the `FOO` event and the two disjoint observers
share no delivered event. -/
theorem republisher_dispatch_iff_witness :
    ((dispatchAll rEx evsEx).subscribers[0]? =
      some { obsFoo with lcmQueue := ⟨obsFoo.lcmQueue.maxsize,
              obsFoo.lcmQueue.items ++ matchedEvents obsFoo evsEx⟩ }) ∧
    matchedEvents obsFoo evsEx = [("FOO", [1])] ∧
    matchedEvents obsBar evsEx = [("BAR", [2])] ∧
    ¬(("FOO", [1]) ∈ matchedEvents obsFoo evsEx ∧
      ("FOO", [1]) ∈ matchedEvents obsBar evsEx) := by
  refine ⟨(republisher_dispatch_iff.2.1 evsEx rEx 0 obsFoo rfl).1, rfl, rfl, ?_⟩
  refine republisher_dispatch_iff.2.2.1 evsEx obsFoo obsBar ?_ ("FOO", [1])
  intro c hc
  have h1 := hc.1
  have h2 := hc.2
  simp only [obsFoo, obsBar, LCMObserver.init, LCMObserver.match] at h1 h2
  simp only [if_false, Bool.ite_eq_true_distrib] at h1 h2
  have e1 : c = "FOO" := by simpa using h1
  have e2 : c = "BAR" := by simpa using h2
  rw [e1] at e2
  exact absurd e2 (by decide)

theorem foldl_handle_items (evs : List Event) (o : LCMObserver) :
    (evs.foldl LCMObserver.handle o).lcmQueue.items = o.lcmQueue.items ++ evs := by
  induction evs generalizing o with
  | nil => simp
  | cons e evs ih =>
      simp [List.foldl_cons, ih, LCMObserver.handle, PyQueue.put]

/-- Claim C2 (code-bug evidence): `LCMObserver.__init__` constructs
`queue.Queue()` with the default `maxsize = 0`, i.e. an UNBOUNDED
queue, and `LCMObserver.handle` is a plain `put`: after any sequence of
enqueues every event is retained in arrival order — nothing is ever
dropped — and no finite bound on the mailbox size exists. -/
theorem observer_mailbox_unbounded :
    (∀ evs : List Event,
      (evs.foldl LCMObserver.handle (LCMObserver.init (fun _ => true) false)).lcmQueue.items
        = evs ∧
      (evs.foldl LCMObserver.handle (LCMObserver.init (fun _ => true) false)).lcmQueue.qsize
        = evs.length ∧
      (LCMObserver.init (fun _ => true) false).lcmQueue.maxsize = 0) ∧
    ¬ ∃ B : Nat, ∀ evs : List Event,
        (evs.foldl LCMObserver.handle (LCMObserver.init (fun _ => true) false)).lcmQueue.qsize ≤ B := by
  have hitems : ∀ evs : List Event,
      (evs.foldl LCMObserver.handle (LCMObserver.init (fun _ => true) false)).lcmQueue.items = evs :=
    fun evs => by simpa [LCMObserver.init] using foldl_handle_items evs _
  constructor
  · intro evs
    exact ⟨hitems evs, by simp [PyQueue.qsize, hitems evs], rfl⟩
  · rintro ⟨B, hB⟩
    have h := hB (List.replicate (B + 1) ("c", []))
    rw [PyQueue.qsize, hitems, List.length_replicate] at h
    omega

/-- Claim C3 counterexample: with a registry holding no types (so its
`decode` yields `None` for the unregistered fingerprint, per the spec's
registry contract), `JSONHandler.handle` does NOT return `None`: it
returns the JSON envelope with an empty `event` object, so a frame IS
sent. -/
theorem json_handler_unknown_fingerprint_emits :
    JSONHandler.handle emptyRegistryDecode "A" [1, 2, 3, 4, 5, 6, 7, 8] =
      some (encode_event_json "A" (bytesHex [1, 2, 3, 4, 5, 6, 7, 8]) none) ∧
    JSONHandler.handle emptyRegistryDecode "A" [1, 2, 3, 4, 5, 6, 7, 8] ≠ none ∧
    (encode_event_json "A" (bytesHex [1, 2, 3, 4, 5, 6, 7, 8]) none).field "event" =
      some (JValue.jobj []) := by
  refine ⟨rfl, ?_, rfl⟩
  intro h
  simp [JSONHandler.handle, emptyRegistryDecode] at h

/-- Claim C3 amended: when the registry's decode yields `None` (unknown
fingerprint), `handle` returns the envelope whose `event` field is the
empty object — not `None`; `handle` returns `None` exactly when decode
raises. -/
theorem json_handler_null_decode_spec
    (dec : List Nat → Except Unit (Option (List (String × PyValue))))
    (ch : String) (data : List Nat) (h : dec data = Except.ok none) :
    JSONHandler.handle dec ch data =
      some (encode_event_json ch (bytesHex (data.take 8)) none) ∧
    (encode_event_json ch (bytesHex (data.take 8)) none).field "event" =
      some (JValue.jobj []) ∧
    ∀ e : Unit, dec data ≠ Except.error e := by
  refine ⟨by simp [JSONHandler.handle, h], ?_, ?_⟩
  · simp [encode_event_json, JValue.field, List.lookup]
  · intro e he
    rw [h] at he
    cases he

/-- Witness for the amended C3 at a concrete input. -/
theorem json_handler_null_decode_spec_witness :
    emptyRegistryDecode [9] = Except.ok none ∧
    JSONHandler.handle emptyRegistryDecode "B" [9] =
      some (encode_event_json "B" (bytesHex [9]) none) := by
  refine ⟨rfl, ?_⟩
  have h := json_handler_null_decode_spec emptyRegistryDecode "B" [9] rfl
  exact h.1

/-- Claim C4 (code-bug evidence): `self._channel_latest_data` is an
attribute of the server object, so all clients' periodic loops share
one latest-value map.  Concretely: client `A` (regex `X`) drains its
pending `("X", [171])` event into the shared map; client `B` (regex
`Y`) then runs a full cycle (possible because `A`'s flush suspends at
the handler `await` before its `finally` clears the entry) and sends a
frame built from channel `X` — an event `B`'s own regex never matched
and `B`'s own observer never held.  Had the map been per-client, `B`'s
cycle over its own (empty) map would send nothing. -/
theorem coalescing_shared_map_leak :
    ((coalescingCycle (drainPhase [] clientX).1 clientY).2.sent = [("X", [171])]) ∧
    clientY.matchFn "X" = false ∧
    clientY.pending = [] ∧
    ((coalescingCycle [] clientY).2.sent = []) := by
  exact ⟨rfl, rfl, rfl, rfl⟩

/-- Claim C5 counterexample: `update_interval_ms=0` and negative values
parse as integers and therefore enter the coalescing loop (the source
checks only `int(...)` success, never positivity), while the claim says
they run in immediate mode. -/
theorem update_interval_nonpositive_coalesces :
    websocketMode (some "0") = UpdateMode.coalescing 0 ∧
    websocketMode (some "-100") = UpdateMode.coalescing (-100) ∧
    websocketMode (some "0") ≠ UpdateMode.immediate := by
  refine ⟨rfl, rfl, ?_⟩
  intro h
  cases h

/-- Claim C5 amended: the connection enters coalescing mode iff the
`update_interval_ms` query parameter is present and `int(...)` parses
it as an integer of ANY sign (that integer then being the period, so
zero and negative periods are accepted); only an absent or unparsable
parameter yields immediate mode. -/
theorem websocket_mode_iff :
    (websocketMode none = UpdateMode.immediate) ∧
    (∀ (s : String) (v : Int),
      websocketMode (some s) = UpdateMode.coalescing v ↔ pythonInt s = some v) ∧
    (∀ s : String, pythonInt s = none → websocketMode (some s) = UpdateMode.immediate) := by
  refine ⟨rfl, ?_, ?_⟩
  · intro s v
    unfold websocketMode parse_update_interval
    simp only [Option.some_bind]
    cases h : pythonInt s with
    | none =>
        simp only [h]
        constructor
        · intro hc; cases hc
        · intro hc; cases hc
    | some w =>
        simp only [h]
        constructor
        · intro hc
          cases hc
          rfl
        · intro hc
          cases hc
          rfl
  · intro s h
    unfold websocketMode parse_update_interval
    simp [h]

/-- Witness for the amended C5: an unparsable value falls back to
immediate mode and a parsable one enters coalescing mode with its
value. -/
theorem websocket_mode_iff_witness :
    websocketMode (some "abc") = UpdateMode.immediate ∧
    websocketMode (some " 42 ") = UpdateMode.coalescing 42 := by
  exact ⟨websocket_mode_iff.2.2 "abc" (by decide),
         (websocket_mode_iff.2.1 " 42 " 42).mpr (by decide)⟩

/-- Claim C6: whenever the JSON handler emits a frame for a payload of
at least 8 bytes (shorter payloads have no leading 8 bytes), its
`fingerprint` field is exactly the lowercase hex encoding of the
payload's leading 8 bytes — 16 characters drawn from the lowercase hex
alphabet, bit-identically determined by `data[:8]`. -/
theorem json_fingerprint_preserved
    (dec : List Nat → Except Unit (Option (List (String × PyValue))))
    (ch : String) (data : List Nat) (f : JValue)
    (hlen : 8 ≤ data.length)
    (hframe : JSONHandler.handle dec ch data = some f) :
    f.field "fingerprint" = some (JValue.jstr (bytesHex (data.take 8))) ∧
    (bytesHex (data.take 8)).length = 16 ∧
    ∀ c ∈ (bytesHex (data.take 8)).data, c ∈ hexDigits := by
  refine ⟨?_, ?_, bytesHex_chars_lowercase _⟩
  · unfold JSONHandler.handle at hframe
    cases hdec : dec data with
    | error e => rw [hdec] at hframe; cases hframe
    | ok ev =>
        rw [hdec] at hframe
        have hf : f = encode_event_json ch (bytesHex (data.take 8)) ev :=
          (Option.some_inj.mp hframe).symm
        rw [hf]
        simp [encode_event_json, JValue.field, List.lookup]
  · rw [bytesHex_length, List.length_take]
    omega

/-- Witness for C6 at a concrete 8-byte payload through a registry with
no types. -/
theorem json_fingerprint_preserved_witness :
    (8 : Nat) ≤ ([0, 1, 2, 3, 4, 5, 6, 255] : List Nat).length ∧
    (encode_event_json "A" (bytesHex ([0, 1, 2, 3, 4, 5, 6, 255].take 8)) none).field
        "fingerprint" =
      some (JValue.jstr (bytesHex ([0, 1, 2, 3, 4, 5, 6, 255].take 8))) ∧
    bytesHex ([0, 1, 2, 3, 4, 5, 6, 255].take 8) = "00010203040506ff" := by
  refine ⟨by decide, ?_, rfl⟩
  exact (json_fingerprint_preserved emptyRegistryDecode "A" [0, 1, 2, 3, 4, 5, 6, 255]
    (encode_event_json "A" (bytesHex ([0, 1, 2, 3, 4, 5, 6, 255].take 8)) none)
    (by decide) rfl).1

/-- Claim C7: the JSON field-value encoding — LCM sub-messages recurse
into nested objects (slot-wise), lists become arrays element-wise
recursively, dicts recurse value-wise, byte sequences become lowercase
hex strings, the NaN float becomes JSON null, and booleans, integers,
finite floats, and strings pass through unchanged. -/
theorem encode_value_spec :
    (∀ slots, encode_value (.plcm slots) =
      .jobj (slots.map fun p => (p.1, encode_value p.2))) ∧
    (∀ l, encode_value (.plist l) = .jarr (l.map encode_value)) ∧
    (∀ l, encode_value (.pdict l) =
      .jobj (l.map fun p => (p.1, encode_value p.2))) ∧
    (∀ bs, encode_value (.pbytes bs) = .jstr (bytesHex bs) ∧
      ∀ c ∈ (bytesHex bs).data, c ∈ hexDigits) ∧
    (encode_value (.pfloat .nan) = .jnull) ∧
    (∀ b, encode_value (.pbool b) = .jbool b) ∧
    (∀ n, encode_value (.pint n) = .jint n) ∧
    (∀ q, encode_value (.pfloat (.finite q)) = .jfloat (.finite q)) ∧
    (encode_value (.pfloat .inf) = .jfloat .inf) ∧
    (encode_value (.pfloat .ninf) = .jfloat .ninf) ∧
    (∀ s, encode_value (.pstr s) = .jstr s) := by
  refine ⟨?_, ?_, ?_, ?_, rfl, fun _ => rfl, fun _ => rfl, fun _ => rfl, rfl, rfl,
    fun _ => rfl⟩
  · intro slots
    rw [encode_value, encodePairs_eq_map]
  · intro l
    rw [encode_value, encodeList_eq_map]
  · intro l
    rw [encode_value, encodePairs_eq_map]
  · intro bs
    exact ⟨rfl, bytesHex_chars_lowercase bs⟩

/-- Claim C8 counterexample: `PixelFormat.BAYER_BGGR` has NO registered
encoder (it is registered with the `encoder` keyword left at `None`),
yet `get_encoder` does not raise the unsupported-pixel-format error —
`_register` stored the `None`, so the lookup succeeds and returns it. -/
theorem get_encoder_bayer_no_error :
    get_encoder PixelFormat.BAYER_BGGR = Except.ok none ∧
    get_encoder PixelFormat.BAYER_BGGR ≠ Except.error PixelFormat.BAYER_BGGR := by
  decide

/-- Claim C8 amended: `get_decoder` raises the unsupported-pixel-format
error exactly for the formats never passed to `_register`, and the
decoder table contains BGR, RGB, GRAY, the four Bayer formats, and
MJPEG; `get_encoder`, however, raises only for those same unregistered
formats — for the four decoder-only Bayer formats it returns the stored
`None` instead of raising — and an actual encoder class is returned
exactly for BGR, RGB, GRAY, and MJPEG. -/
theorem codec_registry_spec :
    (∀ fmt : PixelFormat,
      (∃ e, get_decoder fmt = Except.error e) ↔ fmt ∉ registeredFormats) ∧
    (∀ fmt : PixelFormat,
      (∃ e, get_encoder fmt = Except.error e) ↔ fmt ∉ registeredFormats) ∧
    (∀ fmt : PixelFormat,
      (∃ enc, get_encoder fmt = Except.ok (some enc)) ↔ fmt ∈ encoderFormats) ∧
    (∀ fmt ∈ decoderOnlyFormats, get_encoder fmt = Except.ok none) ∧
    (∀ fmt ∈ registeredFormats, ∃ d, get_decoder fmt = Except.ok d) := by
  decide

/-- Witness for the amended C8 at concrete formats. -/
theorem codec_registry_spec_witness :
    get_encoder PixelFormat.BAYER_GBRG = Except.ok none ∧
    (∃ d, get_decoder PixelFormat.BGR = Except.ok d) ∧
    (∃ e, get_encoder PixelFormat.UYVY = Except.error e) := by
  refine ⟨codec_registry_spec.2.2.2.1 PixelFormat.BAYER_GBRG (by decide), ?_, ?_⟩
  · exact codec_registry_spec.2.2.2.2 PixelFormat.BGR (by decide)
  · exact (codec_registry_spec.2.1 PixelFormat.UYVY).mpr (by decide)

/-- Claim C9: for every stats record produced by `ChannelData.report`
in a run (i.e. on a reachable state): `inv_hz` is `float('inf')`
(modelled `none`) exactly when `hz = 0`, and equals `1/hz` otherwise;
`jitter` is `0` whenever the window's min or max inter-arrival extreme
is unset; and `jitter ≥ 0` in every case. -/
theorem channel_stats_report_edges (d : ChannelData) (hreach : d.Reachable)
    (ch : String) :
    ((d.report ch).inv_hz = none ↔ (d.report ch).hz = 0) ∧
    ((d.report ch).hz ≠ 0 → (d.report ch).inv_hz = some (1 / (d.report ch).hz)) ∧
    (d.min_interval = none ∨ d.max_interval = none → (d.report ch).jitter = 0) ∧
    0 ≤ (d.report ch).jitter := by
  obtain ⟨hhz, -, -, hmm⟩ := ChannelData.reachable_inv hreach
  have hzdef : (d.report ch).hz = d.hz := rfl
  refine ⟨?_, ?_, ?_, ?_⟩
  · rw [hzdef]
    show (if 0 < d.hz then some (1 / d.hz) else none) = none ↔ d.hz = 0
    constructor
    · intro h
      by_contra hne
      have hpos : 0 < d.hz := lt_of_le_of_ne hhz (Ne.symm hne)
      rw [if_pos hpos] at h
      cases h
    · intro h
      rw [if_neg (by rw [h]; exact lt_irrefl 0)]
  · rw [hzdef]
    intro hne
    have hpos : 0 < d.hz := lt_of_le_of_ne hhz (Ne.symm hne)
    show (if 0 < d.hz then some (1 / d.hz) else none) = some (1 / d.hz)
    rw [if_pos hpos]
  · intro hun
    rcases hun with h | h
    · rcases hM : d.max_interval with _ | M <;>
        simp [ChannelData.report, h, hM]
    · rcases hm2 : d.min_interval with _ | m <;>
        simp [ChannelData.report, h, hm2]
  · cases hm : d.min_interval with
    | none =>
        rcases hM : d.max_interval with _ | M <;>
          simp [ChannelData.report, hm, hM]
    | some m =>
        cases hM : d.max_interval with
        | none => simp [ChannelData.report, hm, hM]
        | some M =>
            have hle := hmm m M hm hM
            simp only [ChannelData.report, hm, hM]
            linarith

/-- Witness for C9 on the concrete reachable state `chanEx` (messages
at t=5 and t=7 ns, tick at t=9 ns). -/
theorem channel_stats_report_edges_witness :
    (((chanEx.report "Q").inv_hz = none ↔ (chanEx.report "Q").hz = 0) ∧
      ((chanEx.report "Q").hz ≠ 0 →
        (chanEx.report "Q").inv_hz = some (1 / (chanEx.report "Q").hz)) ∧
      (chanEx.min_interval = none ∨ chanEx.max_interval = none →
        (chanEx.report "Q").jitter = 0) ∧
      0 ≤ (chanEx.report "Q").jitter) ∧
    chanEx.Reachable := by
  have hreach : chanEx.Reachable :=
    ChannelData.Reachable.update_hz_data 9
      (ChannelData.Reachable.message_received "t" 10 true 7
        (ChannelData.Reachable.message_received "t" 10 true 5
          ChannelData.Reachable.init))
  exact ⟨channel_stats_report_edges chanEx hreach "Q", hreach⟩

/-- Claim C10: when a payload's first 8 bytes equal the `image_t`
fingerprint but the payload is not a well-formed `image_t` encoding,
the unguarded `image_t.decode` in `_encode_image_t` raises and
`DialHandler.handle` propagates that exception to its caller instead of
returning `None`; the server's per-client drain loop is what catches
it — its iteration then sends no frame and `continue`s (skipping
`task_done`). -/
theorem dial_decode_exception_propagates (env : DialEnv) (ch : String)
    (data : List Nat) (e : String)
    (hfp : data.take 8 = env.imageFingerprint)
    (hdec : env.decodeImage data = Except.error e) :
    DialHandler.handle env ch data = Except.error e ∧
    DialHandler.handle env ch data ≠ Except.ok none ∧
    serverHandleEvent (DialHandler.handle env) ch data = (none, false) := by
  have h1 : DialHandler.handle env ch data = Except.error e := by
    unfold DialHandler.handle DialHandler.encode_image_t
    rw [if_pos hfp, hdec]
    rfl
  refine ⟨h1, ?_, ?_⟩
  · rw [h1]; intro hc; cases hc
  · unfold serverHandleEvent
    rw [h1]

/-- Witness for C10: the concrete environment `dialEnvEx` whose
`image_t.decode` raises on every payload, applied to a payload carrying
the `image_t` fingerprint. -/
theorem dial_decode_exception_propagates_witness :
    DialHandler.handle dialEnvEx "CAM" [1, 2, 3, 4, 5, 6, 7, 8] =
      Except.error "malformed" ∧
    serverHandleEvent (DialHandler.handle dialEnvEx) "CAM" [1, 2, 3, 4, 5, 6, 7, 8] =
      (none, false) := by
  have h := dial_decode_exception_propagates dialEnvEx "CAM"
    [1, 2, 3, 4, 5, 6, 7, 8] "malformed" rfl rfl
  exact ⟨h.1, h.2.2⟩

end LWS
